import Mathlib

/-! RedisClient: a shallow embedding of `RedisClient.cpp`

`RedisClient` wraps one blocking hiredis connection.  Every public member
function formats one command with `redisCommand`, waits for the reply and turns
the reply into a `bool`, a `std::string`, an `int` or a `double`.

The embedding keeps the three things the member functions can observe:

* the bytes of a `std::string`, and what a `const char*` into it denotes
  (`c_str`: the bytes before the first NUL);
* the reply object hiredis hands back (`redisReply`, or no object at all);
* the connection (`redisContext`): its error flag, the commands written to it so
  far, and the peer that answers them.
-/

namespace RedisClient

/-! ## Strings -/

/-- One `char` of a `std::string`. -/
abbrev Byte := Fin 256

/-- The contents of a `std::string`, or of a length-counted hiredis buffer. -/
abbrev Bytes := List Byte

/-- The bytes of an ASCII literal of the source, such as `"OK"` or `"\n"`. -/
def ascii (s : String) : Bytes := s.toList.map (fun ch => Fin.ofNat ch.toNat)

/-- What a `const char*` to the buffer denotes: the bytes before the first NUL.
This is what `key.c_str()` passed to a `%s` conversion contributes, and what
`std::string(reply->str)` or `result += reply->str` copies. -/
def c_str (s : Bytes) : Bytes := s.takeWhile (fun b => b ≠ 0)

/-! ## Replies -/

/-- The reply object of hiredis, by its `type` tag: `REDIS_REPLY_STRING` carries
`str`, `REDIS_REPLY_ARRAY` carries `element[0 .. elements)`, `REDIS_REPLY_INTEGER`
carries `integer`, `REDIS_REPLY_NIL` carries nothing, `REDIS_REPLY_STATUS` and
`REDIS_REPLY_ERROR` carry `str`. -/
inductive redisReply where
  | STRING (str : Bytes)
  | ARRAY (element : List redisReply)
  | INTEGER (integer : Int)
  | NIL
  | STATUS (str : Bytes)
  | ERROR (str : Bytes)

/-- The field `reply->str`: a buffer for string, status and error replies, the
NULL pointer (`none`) for the other types. -/
def redisReply.str : redisReply → Option Bytes
  | .STRING str => some str
  | .STATUS str => some str
  | .ERROR str => some str
  | _ => none

/-! ## Outcomes of a call -/

/-- The ways a member function can end without returning a value. -/
inductive Fault where
  /-- Exception `std::invalid_argument`, thrown by `std::stod` when no conversion can be done. -/
  | invalid_argument
  /-- Exception `std::out_of_range`, thrown by `std::stod` when the value does not fit a `double`. -/
  | out_of_range
  /-- A NULL `char*` given to `std::string` (undefined behaviour). -/
  | null_string
  /-- The access `reply->element[i]` with `i ≥ reply->elements` (undefined behaviour). -/
  | out_of_bounds
  deriving DecidableEq, Repr

/-- How a call ends: it returns `value`, or it ends by `fault`. -/
inductive Outcome (α : Type) where
  | returned (value : α)
  | failed (fault : Fault)
  deriving DecidableEq, Repr

/-! ## The connection -/

/-- The hiredis connection as the client sees it.

* `err`: the flag `context->err`; once set the context cannot be used again.
* `written`: the commands written to the connection so far, oldest first, each
  one as its list of arguments.
* `peer`: the other end of the connection.  Given everything written so far,
  the last entry being the command just sent, it answers with a reply, or with
  `none` when the connection breaks before a reply arrives. -/
structure redisContext where
  err : Bool
  written : List (List Bytes)
  peer : List (List Bytes) → Option redisReply

/-- The blocking `redisCommand`, given the arguments hiredis builds from the
format: one for each blank-separated part, a `%s` part being the C string that
was passed.  On a context in error nothing is written and NULL is returned;
otherwise the command is written and the peer's reply is returned, a missing
reply putting the context in error. -/
def redisCommand (c : redisContext) (argv : List Bytes) : Option redisReply × redisContext :=
  if c.err then (none, c)
  else
    match c.peer (c.written ++ [argv]) with
    | none => (none, { c with err := true, written := c.written ++ [argv] })
    | some reply => (some reply, { c with written := c.written ++ [argv] })

/-- A `%d` conversion: the decimal text of an `int`. -/
def decimal (n : Int) : Bytes := ascii (toString n)

/-- The conversion of `long long` to `int` (two's complement, 32 bits). -/
def toInt (n : Int) : Int := (n + 2 ^ 31) % 2 ^ 32 - 2 ^ 31

/-- What the source needs of `double`: the constant `0.0`, `std::stod`, and the
text a `%f` conversion produces. -/
structure Double (F : Type) where
  zero : F
  stod : Bytes → Outcome F
  printf_f : F → Bytes

/-! ## String operations -/

/-- Member function `RedisClient::set` -/
def set (c : redisContext) (key value : Bytes) : Outcome Bool × redisContext :=
  let r := redisCommand c [ascii "SET", c_str key, c_str value]
  let success := match r.1 with
    | some (.STATUS str) => decide (c_str str = ascii "OK")
    | _ => false
  (.returned success, r.2)

/-- Member function `RedisClient::get` -/
def get (c : redisContext) (key : Bytes) : Outcome Bytes × redisContext :=
  let r := redisCommand c [ascii "GET", c_str key]
  let value := match r.1 with
    | some (.STRING str) => c_str str
    | _ => []
  (.returned value, r.2)

/-- Member function `RedisClient::del` -/
def del (c : redisContext) (key : Bytes) : Outcome Bool × redisContext :=
  let r := redisCommand c [ascii "DEL", c_str key]
  let success := match r.1 with
    | some (.INTEGER integer) => decide (integer > 0)
    | _ => false
  (.returned success, r.2)

/-- Member function `RedisClient::incr` -/
def incr (c : redisContext) (key : Bytes) : Outcome Bool × redisContext :=
  let r := redisCommand c [ascii "INCR", c_str key]
  let success := match r.1 with
    | some (.INTEGER _) => true
    | _ => false
  (.returned success, r.2)

/-! ## Hash operations -/

/-- Member function `RedisClient::hset` -/
def hset (c : redisContext) (key field value : Bytes) : Outcome Bool × redisContext :=
  let r := redisCommand c [ascii "HSET", c_str key, c_str field, c_str value]
  let success := match r.1 with
    | some (.INTEGER integer) => decide (integer = 1)
    | _ => false
  (.returned success, r.2)

/-- Member function `RedisClient::hget` -/
def hget (c : redisContext) (key field : Bytes) : Outcome Bytes × redisContext :=
  let r := redisCommand c [ascii "HGET", c_str key, c_str field]
  let value := match r.1 with
    | some (.STRING str) => c_str str
    | _ => []
  (.returned value, r.2)

/-- Member function `RedisClient::hdel` -/
def hdel (c : redisContext) (key field : Bytes) : Outcome Bool × redisContext :=
  let r := redisCommand c [ascii "HDEL", c_str key, c_str field]
  let success := match r.1 with
    | some (.INTEGER integer) => decide (integer > 0)
    | _ => false
  (.returned success, r.2)

/-- The expression `reply->element[i]->str` used as a C string: reading
`element[i]` with `i ≥ elements` is out of bounds, and a NULL `str` cannot be
appended to a `std::string`. -/
def elementStr (element : List redisReply) (i : Nat) : Outcome Bytes :=
  match element[i]? with
  | none => .failed .out_of_bounds
  | some e =>
    match e.str with
    | none => .failed .null_string
    | some str => .returned (c_str str)

/-- The loop of `hgetall`, from index `i` on, `result` being the text built so
far: `for (; i < elements; i += 2)` appends `element[i]`, `": "`,
`element[i + 1]` and `"\n"`. -/
def hgetallLoop (element : List redisReply) (i : Nat) (result : Bytes) : Outcome Bytes :=
  if i < element.length then
    match elementStr element i with
    | .failed fault => .failed fault
    | .returned f =>
      match elementStr element (i + 1) with
      | .failed fault => .failed fault
      | .returned v => hgetallLoop element (i + 2) (result ++ f ++ ascii ": " ++ v ++ ascii "\n")
  else .returned result
termination_by element.length - i
decreasing_by omega

/-- Member function `RedisClient::hgetall` -/
def hgetall (c : redisContext) (key : Bytes) : Outcome Bytes × redisContext :=
  let r := redisCommand c [ascii "HGETALL", c_str key]
  let result := match r.1 with
    | some (.ARRAY element) => hgetallLoop element 0 []
    | _ => .returned []
  (result, r.2)

/-! ## List operations -/

/-- Member function `RedisClient::lpush` -/
def lpush (c : redisContext) (key value : Bytes) : Outcome Bool × redisContext :=
  let r := redisCommand c [ascii "LPUSH", c_str key, c_str value]
  let success := match r.1 with
    | some (.INTEGER _) => true
    | _ => false
  (.returned success, r.2)

/-- Member function `RedisClient::rpush` -/
def rpush (c : redisContext) (key value : Bytes) : Outcome Bool × redisContext :=
  let r := redisCommand c [ascii "RPUSH", c_str key, c_str value]
  let success := match r.1 with
    | some (.INTEGER _) => true
    | _ => false
  (.returned success, r.2)

/-- Member function `RedisClient::lpop` -/
def lpop (c : redisContext) (key : Bytes) : Outcome Bytes × redisContext :=
  let r := redisCommand c [ascii "LPOP", c_str key]
  let value := match r.1 with
    | some (.STRING str) => c_str str
    | _ => []
  (.returned value, r.2)

/-- Member function `RedisClient::rpop` -/
def rpop (c : redisContext) (key : Bytes) : Outcome Bytes × redisContext :=
  let r := redisCommand c [ascii "RPOP", c_str key]
  let value := match r.1 with
    | some (.STRING str) => c_str str
    | _ => []
  (.returned value, r.2)

/-- The loop shared by `lrange`, `smembers`, `zrange` and `keys`, from index `i`
on: `for (; i < elements; ++i)` appends `element[i]` and `"\n"`. -/
def linesLoop (element : List redisReply) (i : Nat) (result : Bytes) : Outcome Bytes :=
  if i < element.length then
    match elementStr element i with
    | .failed fault => .failed fault
    | .returned s => linesLoop element (i + 1) (result ++ s ++ ascii "\n")
  else .returned result
termination_by element.length - i
decreasing_by omega

/-- Member function `RedisClient::lrange` -/
def lrange (c : redisContext) (key : Bytes) (start stop : Int) : Outcome Bytes × redisContext :=
  let r := redisCommand c [ascii "LRANGE", c_str key, decimal start, decimal stop]
  let result := match r.1 with
    | some (.ARRAY element) => linesLoop element 0 []
    | _ => .returned []
  (result, r.2)

/-! ## Set operations -/

/-- Member function `RedisClient::sadd` -/
def sadd (c : redisContext) (key member : Bytes) : Outcome Bool × redisContext :=
  let r := redisCommand c [ascii "SADD", c_str key, c_str member]
  let success := match r.1 with
    | some (.INTEGER integer) => decide (integer > 0)
    | _ => false
  (.returned success, r.2)

/-- Member function `RedisClient::srem` -/
def srem (c : redisContext) (key member : Bytes) : Outcome Bool × redisContext :=
  let r := redisCommand c [ascii "SREM", c_str key, c_str member]
  let success := match r.1 with
    | some (.INTEGER integer) => decide (integer > 0)
    | _ => false
  (.returned success, r.2)

/-- Member function `RedisClient::smembers` -/
def smembers (c : redisContext) (key : Bytes) : Outcome Bytes × redisContext :=
  let r := redisCommand c [ascii "SMEMBERS", c_str key]
  let result := match r.1 with
    | some (.ARRAY element) => linesLoop element 0 []
    | _ => .returned []
  (result, r.2)

/-- Member function `RedisClient::sismember` -/
def sismember (c : redisContext) (key member : Bytes) : Outcome Bool × redisContext :=
  let r := redisCommand c [ascii "SISMEMBER", c_str key, c_str member]
  let success := match r.1 with
    | some (.INTEGER integer) => decide (integer > 0)
    | _ => false
  (.returned success, r.2)

/-! ## Sorted set operations -/

/-- Member function `RedisClient::zadd` -/
def zadd {F : Type} (D : Double F) (c : redisContext) (key : Bytes) (score : F) (member : Bytes) :
    Outcome Bool × redisContext :=
  let r := redisCommand c [ascii "ZADD", c_str key, D.printf_f score, c_str member]
  let success := match r.1 with
    | some (.INTEGER integer) => decide (integer > 0)
    | _ => false
  (.returned success, r.2)

/-- Member function `RedisClient::zrange` -/
def zrange (c : redisContext) (key : Bytes) (start stop : Int) : Outcome Bytes × redisContext :=
  let r := redisCommand c [ascii "ZRANGE", c_str key, decimal start, decimal stop]
  let result := match r.1 with
    | some (.ARRAY element) => linesLoop element 0 []
    | _ => .returned []
  (result, r.2)

/-- Member function `RedisClient::zrem` -/
def zrem (c : redisContext) (key member : Bytes) : Outcome Bool × redisContext :=
  let r := redisCommand c [ascii "ZREM", c_str key, c_str member]
  let success := match r.1 with
    | some (.INTEGER integer) => decide (integer > 0)
    | _ => false
  (.returned success, r.2)

/-- Member function `RedisClient::zscore`: `std::stod` gets the `std::string`
built from `reply->str`, and an exception it throws leaves `zscore`. -/
def zscore {F : Type} (D : Double F) (c : redisContext) (key member : Bytes) :
    Outcome F × redisContext :=
  let r := redisCommand c [ascii "ZSCORE", c_str key, c_str member]
  let score := match r.1 with
    | some (.STRING str) => D.stod (c_str str)
    | _ => .returned D.zero
  (score, r.2)

/-! ## Transaction operations -/

/-- Member function `RedisClient::multi` -/
def multi (c : redisContext) : Outcome Bool × redisContext :=
  let r := redisCommand c [ascii "MULTI"]
  let success := match r.1 with
    | some (.ARRAY _) => true
    | _ => false
  (.returned success, r.2)

/-- Member function `RedisClient::exec` -/
def exec (c : redisContext) : Outcome Bool × redisContext :=
  let r := redisCommand c [ascii "EXEC"]
  let success := match r.1 with
    | some (.ARRAY _) => true
    | _ => false
  (.returned success, r.2)

/-- Member function `RedisClient::discard` -/
def discard (c : redisContext) : Outcome Bool × redisContext :=
  let r := redisCommand c [ascii "DISCARD"]
  let success := match r.1 with
    | some (.STATUS str) => decide (c_str str = ascii "OK")
    | _ => false
  (.returned success, r.2)

/-- Member function `RedisClient::watch` -/
def watch (c : redisContext) (key : Bytes) : Outcome Bool × redisContext :=
  let r := redisCommand c [ascii "WATCH", c_str key]
  let success := match r.1 with
    | some (.STATUS str) => decide (c_str str = ascii "OK")
    | _ => false
  (.returned success, r.2)

/-! ## Publish/subscribe operations -/

/-- Member function `RedisClient::publish` -/
def publish (c : redisContext) (channel message : Bytes) : Outcome Bool × redisContext :=
  let r := redisCommand c [ascii "PUBLISH", c_str channel, c_str message]
  let success := match r.1 with
    | some (.INTEGER _) => true
    | _ => false
  (.returned success, r.2)

/-- Member function `RedisClient::subscribe` -/
def subscribe (c : redisContext) (channel : Bytes) : Outcome Bool × redisContext :=
  let r := redisCommand c [ascii "SUBSCRIBE", c_str channel]
  let success := match r.1 with
    | some (.ARRAY _) => true
    | _ => false
  (.returned success, r.2)

/-- Member function `RedisClient::unsubscribe` -/
def unsubscribe (c : redisContext) (channel : Bytes) : Outcome Bool × redisContext :=
  let r := redisCommand c [ascii "UNSUBSCRIBE", c_str channel]
  let success := match r.1 with
    | some (.ARRAY _) => true
    | _ => false
  (.returned success, r.2)

/-! ## Server management operations -/

/-- Member function `RedisClient::info` -/
def info (c : redisContext) : Outcome Bytes × redisContext :=
  let r := redisCommand c [ascii "INFO"]
  let value := match r.1 with
    | some (.STRING str) => c_str str
    | _ => []
  (.returned value, r.2)

/-- Member function `RedisClient::configGet`: with more than one element the
result is assigned from `element[1]->str`. -/
def configGet (c : redisContext) (parameter : Bytes) : Outcome Bytes × redisContext :=
  let r := redisCommand c [ascii "CONFIG", ascii "GET", c_str parameter]
  let result := match r.1 with
    | some (.ARRAY element) => if element.length > 1 then elementStr element 1 else .returned []
    | _ => .returned []
  (result, r.2)

/-- Member function `RedisClient::configSet` -/
def configSet (c : redisContext) (parameter value : Bytes) : Outcome Bool × redisContext :=
  let r := redisCommand c [ascii "CONFIG", ascii "SET", c_str parameter, c_str value]
  let success := match r.1 with
    | some (.STATUS str) => decide (c_str str = ascii "OK")
    | _ => false
  (.returned success, r.2)

/-- Member function `RedisClient::flushdb` -/
def flushdb (c : redisContext) : Outcome Bool × redisContext :=
  let r := redisCommand c [ascii "FLUSHDB"]
  let success := match r.1 with
    | some (.STATUS str) => decide (c_str str = ascii "OK")
    | _ => false
  (.returned success, r.2)

/-- Member function `RedisClient::flushall` -/
def flushall (c : redisContext) : Outcome Bool × redisContext :=
  let r := redisCommand c [ascii "FLUSHALL"]
  let success := match r.1 with
    | some (.STATUS str) => decide (c_str str = ascii "OK")
    | _ => false
  (.returned success, r.2)

/-! ## Key operations -/

/-- Member function `RedisClient::keys` -/
def keys (c : redisContext) (pattern : Bytes) : Outcome Bytes × redisContext :=
  let r := redisCommand c [ascii "KEYS", c_str pattern]
  let result := match r.1 with
    | some (.ARRAY element) => linesLoop element 0 []
    | _ => .returned []
  (result, r.2)

/-- Member function `RedisClient::expire` -/
def expire (c : redisContext) (key : Bytes) (seconds : Int) : Outcome Bool × redisContext :=
  let r := redisCommand c [ascii "EXPIRE", c_str key, decimal seconds]
  let success := match r.1 with
    | some (.INTEGER integer) => decide (integer = 1)
    | _ => false
  (.returned success, r.2)

/-- Member function `RedisClient::ttl` -/
def ttl (c : redisContext) (key : Bytes) : Outcome Int × redisContext :=
  let r := redisCommand c [ascii "TTL", c_str key]
  let ttl := match r.1 with
    | some (.INTEGER integer) => toInt integer
    | _ => -1
  (.returned ttl, r.2)

/-! ## The public interface as one type -/

/-- A value a member function returns: `bool`, `std::string`, `int` or `double`. -/
inductive Value (F : Type) where
  | bool (b : Bool)
  | string (s : Bytes)
  | int (n : Int)
  | double (x : F)
  deriving DecidableEq, Repr

/-- A call of one of the public member functions declared in `RedisClient.h`,
with its arguments. -/
inductive Call (F : Type) where
  | set (key value : Bytes)
  | get (key : Bytes)
  | del (key : Bytes)
  | incr (key : Bytes)
  | hset (key field value : Bytes)
  | hget (key field : Bytes)
  | hdel (key field : Bytes)
  | hgetall (key : Bytes)
  | lpush (key value : Bytes)
  | rpush (key value : Bytes)
  | lpop (key : Bytes)
  | rpop (key : Bytes)
  | lrange (key : Bytes) (start stop : Int)
  | sadd (key member : Bytes)
  | srem (key member : Bytes)
  | smembers (key : Bytes)
  | sismember (key member : Bytes)
  | zadd (key : Bytes) (score : F) (member : Bytes)
  | zrange (key : Bytes) (start stop : Int)
  | zrem (key member : Bytes)
  | zscore (key member : Bytes)
  | multi
  | exec
  | discard
  | watch (key : Bytes)
  | publish (channel message : Bytes)
  | subscribe (channel : Bytes)
  | unsubscribe (channel : Bytes)
  | info
  | configGet (parameter : Bytes)
  | configSet (parameter value : Bytes)
  | flushdb
  | flushall
  | keys (pattern : Bytes)
  | expire (key : Bytes) (seconds : Int)
  | ttl (key : Bytes)

/-- An outcome with its value wrapped by `f`. -/
def Outcome.map {α β : Type} (f : α → β) : Outcome α → Outcome β
  | .returned value => .returned (f value)
  | .failed fault => .failed fault

/-- The outcome of a call and the connection after it, the value tagged with its type. -/
def tagged {α F : Type} (f : α → Value F) (r : Outcome α × redisContext) :
    Outcome (Value F) × redisContext :=
  (r.1.map f, r.2)

/-- Performs `call` on the connection `c`. -/
def perform {F : Type} (D : Double F) (c : redisContext) :
    Call F → Outcome (Value F) × redisContext
  | .set key value => tagged .bool (set c key value)
  | .get key => tagged .string (get c key)
  | .del key => tagged .bool (del c key)
  | .incr key => tagged .bool (incr c key)
  | .hset key field value => tagged .bool (hset c key field value)
  | .hget key field => tagged .string (hget c key field)
  | .hdel key field => tagged .bool (hdel c key field)
  | .hgetall key => tagged .string (hgetall c key)
  | .lpush key value => tagged .bool (lpush c key value)
  | .rpush key value => tagged .bool (rpush c key value)
  | .lpop key => tagged .string (lpop c key)
  | .rpop key => tagged .string (rpop c key)
  | .lrange key start stop => tagged .string (lrange c key start stop)
  | .sadd key member => tagged .bool (sadd c key member)
  | .srem key member => tagged .bool (srem c key member)
  | .smembers key => tagged .string (smembers c key)
  | .sismember key member => tagged .bool (sismember c key member)
  | .zadd key score member => tagged .bool (zadd D c key score member)
  | .zrange key start stop => tagged .string (zrange c key start stop)
  | .zrem key member => tagged .bool (zrem c key member)
  | .zscore key member => tagged .double (zscore D c key member)
  | .multi => tagged .bool (multi c)
  | .exec => tagged .bool (exec c)
  | .discard => tagged .bool (discard c)
  | .watch key => tagged .bool (watch c key)
  | .publish channel message => tagged .bool (publish c channel message)
  | .subscribe channel => tagged .bool (subscribe c channel)
  | .unsubscribe channel => tagged .bool (unsubscribe c channel)
  | .info => tagged .string (info c)
  | .configGet parameter => tagged .string (configGet c parameter)
  | .configSet parameter value => tagged .bool (configSet c parameter value)
  | .flushdb => tagged .bool (flushdb c)
  | .flushall => tagged .bool (flushall c)
  | .keys pattern => tagged .string (keys c pattern)
  | .expire key seconds => tagged .bool (expire c key seconds)
  | .ttl key => tagged .int (ttl c key)

/-- The value each member function falls back to when the reply is not of the
type it looks for: `false`, the empty string, `-1` for `ttl`, `0.0` for `zscore`. -/
def fallback {F : Type} (D : Double F) : Call F → Value F
  | .get _ | .hget _ _ | .hgetall _ | .lpop _ | .rpop _ | .lrange _ _ _ | .smembers _
  | .zrange _ _ _ | .info | .configGet _ | .keys _ => .string []
  | .zscore _ _ => .double D.zero
  | .ttl _ => .int (-1)
  | _ => .bool false

/-! ## Connections used to state the properties -/

/-- Whatever command is sent next on `c`, `redisCommand` hands back `reply`
(`none`: it returns NULL). -/
def Replies (c : redisContext) (reply : Option redisReply) : Prop :=
  ∀ argv, (redisCommand c argv).1 = reply

/-- A live connection on which nothing has been written yet and whose peer
answers every command with `reply`. -/
def answering (reply : Option redisReply) : redisContext :=
  { err := false, written := [], peer := fun _ => reply }

/-- The reply is an Integer `n` with `n > 0`. -/
def PositiveInteger (reply : Option redisReply) : Prop :=
  ∃ n : Int, 0 < n ∧ reply = some (.INTEGER n)

/-- The reply is an Array. -/
def IsArray (reply : Option redisReply) : Prop :=
  ∃ element, reply = some (.ARRAY element)

/-- The reply is a present bulk string. -/
def IsString (reply : Option redisReply) : Prop :=
  ∃ str, reply = some (.STRING str)

/-- A live connection on which nothing has been written yet and whose peer
answers the first command with the first reply of `replies`, the second with
the second, and so on; past the end of `replies` the connection breaks. -/
def scripted (replies : List redisReply) : redisContext :=
  { err := false, written := [], peer := fun written => replies[written.length - 1]? }

/-! ### A store that executes SET and GET -/

/-- The value stored under `key`, the latest entry first. -/
def lookup (key : Bytes) : List (Bytes × Bytes) → Option Bytes
  | [] => none
  | (k, v) :: db => if k = key then some v else lookup key db

/-- One command executed by the store: `SET key value` stores the value and is
answered by the status `OK`; `GET key` is answered by the stored value as a bulk
string, or by the null reply when nothing is stored; anything else is answered
by an error and changes nothing. -/
def storeStep (db : List (Bytes × Bytes)) (argv : List Bytes) :
    List (Bytes × Bytes) × redisReply :=
  match argv with
  | [name, key, value] =>
    if name = ascii "SET" then ((key, value) :: db, .STATUS (ascii "OK"))
    else (db, .ERROR (ascii "ERR unknown command"))
  | [name, key] =>
    if name = ascii "GET" then
      (db, match lookup key db with
        | some value => .STRING value
        | none => .NIL)
    else (db, .ERROR (ascii "ERR unknown command"))
  | _ => (db, .ERROR (ascii "ERR unknown command"))

/-- The contents of the store once it has executed `written`, starting from `db`. -/
def storeAfter (db : List (Bytes × Bytes)) (written : List (List Bytes)) : List (Bytes × Bytes) :=
  written.foldl (fun d argv => (storeStep d argv).1) db

/-- The peer that is such a store holding `db` at first: it executes every
command it receives, in order, and answers the last one. -/
def faithfulStore (db : List (Bytes × Bytes)) (written : List (List Bytes)) : Option redisReply :=
  match written.getLast? with
  | none => none
  | some argv => some (storeStep (storeAfter db written.dropLast) argv).2

/-- A live connection to such a store holding `db`, nothing written yet. -/
def connected (db : List (Bytes × Bytes)) : redisContext :=
  { err := false, written := [], peer := faithfulStore db }

/-! ### Reading a newline-terminated text back as a list -/

/-- The lines of `text`, `line` being the part of the current line read so far:
every `'\n'` ends a line; text after the last `'\n'` is an unterminated last line. -/
def splitLinesFrom (line : Bytes) : Bytes → List Bytes
  | [] => if line = [] then [] else [line]
  | b :: text => if b = 10 then line :: splitLinesFrom [] text else splitLinesFrom (line ++ [b]) text

/-- The text split at its `'\n'` terminators. -/
def splitLines (text : Bytes) : List Bytes := splitLinesFrom [] text

/-- The text in which every entry of `lines` is followed by `'\n'`. -/
def unlines : List Bytes → Bytes
  | [] => []
  | line :: lines => line ++ ascii "\n" ++ unlines lines

/-! ## Properties -/

theorem answering_replies (reply : Option redisReply) : Replies (answering reply) reply := by
  intro argv
  cases reply <;> simp [redisCommand, answering]

/-- The boolean computed by `reply && reply->type == REDIS_REPLY_INTEGER &&
reply->integer > 0` is `true` exactly for a positive Integer reply. -/
theorem positive_match (reply : Option redisReply) :
    ∃ b, Outcome.returned
        (match reply with
          | some (.INTEGER integer) => decide (integer > 0)
          | _ => false) = Outcome.returned b ∧
      (b = true ↔ PositiveInteger reply) := by
  refine ⟨_, rfl, ?_⟩
  unfold PositiveInteger
  rcases reply with _ | r
  · simp
  · cases r <;> simp

/-- C7: for each of del, hdel, srem, zrem, sadd and zadd and every reply (a
missing reply included), the call returns a boolean, and that boolean is true
if and only if the reply is an Integer n with n > 0; an Integer 0 gives false. -/
theorem removal_true_iff_positive_integer {F : Type} (D : Double F) (c : redisContext)
    (reply : Option redisReply) (h : Replies c reply) (key field member : Bytes) (score : F) :
    (∃ b, (del c key).1 = .returned b ∧ (b = true ↔ PositiveInteger reply)) ∧
    (∃ b, (hdel c key field).1 = .returned b ∧ (b = true ↔ PositiveInteger reply)) ∧
    (∃ b, (srem c key member).1 = .returned b ∧ (b = true ↔ PositiveInteger reply)) ∧
    (∃ b, (zrem c key member).1 = .returned b ∧ (b = true ↔ PositiveInteger reply)) ∧
    (∃ b, (sadd c key member).1 = .returned b ∧ (b = true ↔ PositiveInteger reply)) ∧
    (∃ b, (zadd D c key score member).1 = .returned b ∧ (b = true ↔ PositiveInteger reply)) := by
  have key_fact := positive_match reply
  refine ⟨?_, ?_, ?_, ?_, ?_, ?_⟩
  · simpa only [del, h _] using key_fact
  · simpa only [hdel, h _] using key_fact
  · simpa only [srem, h _] using key_fact
  · simpa only [zrem, h _] using key_fact
  · simpa only [sadd, h _] using key_fact
  · simpa only [zadd, h _] using key_fact

/-- An instance of `removal_true_iff_positive_integer` at a concrete connection. -/
theorem removal_true_iff_positive_integer_witness :
    Replies (answering (some (.INTEGER 0))) (some (.INTEGER 0)) ∧
    ∀ (F : Type) (D : Double F) (score : F),
      (∃ b, (del (answering (some (.INTEGER 0))) (ascii "k")).1 = .returned b ∧
        (b = true ↔ PositiveInteger (some (.INTEGER 0)))) ∧
      (∃ b, (zadd D (answering (some (.INTEGER 0))) (ascii "k") score (ascii "m")).1
          = .returned b ∧ (b = true ↔ PositiveInteger (some (.INTEGER 0)))) :=
  ⟨answering_replies _, fun _ D score =>
    ⟨(removal_true_iff_positive_integer D _ _ (answering_replies _)
        (ascii "k") (ascii "f") (ascii "m") score).1,
      (removal_true_iff_positive_integer D _ _ (answering_replies _)
        (ascii "k") (ascii "f") (ascii "m") score).2.2.2.2.2⟩⟩

/-! ### Error replies (C1) -/

/-- C1 (as stated, refuted): on an Error-tagged reply with text `ERR` nothing
fails with a CommandError.  `get` returns the empty string, `del` and `exec`
return false, `ttl` returns -1 and `zscore` returns 0.0: normal values, with the
error text dropped. -/
theorem error_reply_returns_normal_value :
    (get (answering (some (.ERROR (ascii "ERR")))) (ascii "k")).1 = .returned [] ∧
    (del (answering (some (.ERROR (ascii "ERR")))) (ascii "k")).1 = .returned false ∧
    (exec (answering (some (.ERROR (ascii "ERR"))))).1 = .returned false ∧
    (ttl (answering (some (.ERROR (ascii "ERR")))) (ascii "k")).1 = .returned (-1) ∧
    ∀ (F : Type) (D : Double F),
      (zscore D (answering (some (.ERROR (ascii "ERR")))) (ascii "k") (ascii "m")).1
        = .returned D.zero := by
  refine ⟨?_, ?_, ?_, ?_, ?_⟩
  · rfl
  · rfl
  · rfl
  · rfl
  · intro F D
    rfl

/-- C1 (amended): for every public member function and every Error-tagged
reply, whatever its text, the call raises nothing and returns the fallback value
of its return type: false, the empty string, -1 for ttl, 0.0 for zscore. -/
theorem error_reply_gives_fallback {F : Type} (D : Double F) (c : redisContext) (e : Bytes)
    (h : Replies c (some (.ERROR e))) (call : Call F) :
    (perform D c call).1 = .returned (fallback D call) := by
  cases call <;>
    simp [perform, tagged, Outcome.map, fallback, h _, set, get, del, incr, hset, hget, hdel,
      hgetall, lpush, rpush, lpop, rpop, lrange, sadd, srem, smembers, sismember, zadd, zrange,
      zrem, zscore, multi, exec, discard, watch, publish, subscribe, unsubscribe, info, configGet,
      configSet, flushdb, flushall, keys, expire, ttl]

/-- An instance of `error_reply_gives_fallback` at a concrete connection. -/
theorem error_reply_gives_fallback_witness :
    Replies (answering (some (.ERROR (ascii "ERR")))) (some (.ERROR (ascii "ERR"))) ∧
    ∀ (F : Type) (D : Double F),
      (perform D (answering (some (.ERROR (ascii "ERR")))) (.hgetall (ascii "k"))).1
        = .returned (.string []) ∧
      (perform D (answering (some (.ERROR (ascii "ERR")))) (.zscore (ascii "k") (ascii "m"))).1
        = .returned (.double D.zero) :=
  ⟨answering_replies _, fun _ D =>
    ⟨error_reply_gives_fallback D _ (ascii "ERR") (answering_replies _) (.hgetall (ascii "k")),
      error_reply_gives_fallback D _ (ascii "ERR") (answering_replies _)
        (.zscore (ascii "k") (ascii "m"))⟩⟩

/-! ### Transactions (C3, C4, C5) -/

/-- C3 (the code at the failing input): the store runs a transaction and
answers WATCH with OK, MULTI with OK, the queued SET with QUEUED and EXEC with
the array of results.  `watch` returns true, `multi` returns false although
MULTI was acknowledged, the queued `set` returns false, `exec` returns true. -/
theorem multi_false_on_acknowledged_transaction :
    (watch (scripted [.STATUS (ascii "OK"), .STATUS (ascii "OK"), .STATUS (ascii "QUEUED"),
        .ARRAY [.STATUS (ascii "OK")]]) (ascii "k")).1 = .returned true ∧
    (multi (watch (scripted [.STATUS (ascii "OK"), .STATUS (ascii "OK"),
        .STATUS (ascii "QUEUED"), .ARRAY [.STATUS (ascii "OK")]]) (ascii "k")).2).1
      = .returned false ∧
    (set (multi (watch (scripted [.STATUS (ascii "OK"), .STATUS (ascii "OK"),
        .STATUS (ascii "QUEUED"), .ARRAY [.STATUS (ascii "OK")]]) (ascii "k")).2).2
        (ascii "k") (ascii "v")).1 = .returned false ∧
    (exec (set (multi (watch (scripted [.STATUS (ascii "OK"), .STATUS (ascii "OK"),
        .STATUS (ascii "QUEUED"), .ARRAY [.STATUS (ascii "OK")]]) (ascii "k")).2).2
        (ascii "k") (ascii "v")).2).1 = .returned true := by
  refine ⟨?_, ?_, ?_, ?_⟩ <;> rfl

/-- What `multi` computes: true exactly on an Array reply, so false on every
status reply, the acknowledgement `OK` included. -/
theorem multi_true_iff_array (c : redisContext) (reply : Option redisReply)
    (h : Replies c reply) :
    ((multi c).1 = .returned true ↔ IsArray reply) ∧
    (∀ str, reply = some (.STATUS str) → (multi c).1 = .returned false) := by
  unfold IsArray
  rcases reply with _ | r
  · simp [multi, h _]
  · cases r <;> simp [multi, h _]

/-- C4 (as stated, refuted): `exec` returns the same result, false, for the
null reply of an aborted transaction, for an Error-tagged reply and for no
reply at all. -/
theorem exec_abort_same_as_error :
    (exec (answering (some .NIL))).1 = (exec (answering (some (.ERROR (ascii "ERR"))))).1 ∧
    (exec (answering (some .NIL))).1 = (exec (answering none)).1 ∧
    (exec (answering (some .NIL))).1 = .returned false := by
  refine ⟨?_, ?_, ?_⟩ <;> rfl

/-- C4 (amended): `exec` returns true exactly when the reply is an Array and
false for every other reply.  The null reply of an aborted transaction, an
Error-tagged reply and a missing reply all give false: they differ from a
successful execution and not from each other. -/
theorem exec_true_iff_array (c : redisContext) (reply : Option redisReply)
    (h : Replies c reply) :
    ((exec c).1 = .returned true ↔ IsArray reply) ∧
    (¬ IsArray reply → (exec c).1 = .returned false) := by
  unfold IsArray
  rcases reply with _ | r
  · simp [exec, h _]
  · cases r <;> simp [exec, h _]

/-- An instance of `exec_true_iff_array` at a concrete connection. -/
theorem exec_true_iff_array_witness :
    Replies (answering (some .NIL)) (some .NIL) ∧
    (exec (answering (some .NIL))).1 = .returned false :=
  ⟨answering_replies _,
    (exec_true_iff_array _ (some .NIL) (answering_replies _)).2 (by simp [IsArray])⟩

theorem c_str_of_no_nul (s : Bytes) (h : (0 : Byte) ∉ s) : c_str s = s := by
  unfold c_str
  induction s with
  | nil => rfl
  | cons b t ih =>
    have hb : b ≠ 0 := fun hb0 => h (by simp [hb0])
    have ht : (0 : Byte) ∉ t := fun h0 => h (List.mem_cons_of_mem _ h0)
    simp only [List.takeWhile_cons, hb, ne_eq, not_false_eq_true, decide_True, if_true]
    rw [ih ht]

theorem c_str_no_nul (s : Bytes) : (0 : Byte) ∉ c_str s := by
  unfold c_str
  intro h
  have := List.mem_takeWhile_imp h
  simp at this

theorem c_str_idem (s : Bytes) : c_str (c_str s) = c_str s :=
  c_str_of_no_nul _ (c_str_no_nul s)

/-- C6 (as stated, refuted): for the bulk string of the three bytes `a`, NUL,
`b`, `get` returns the single byte `a`, not the bytes of the reply. -/
theorem get_truncates_at_nul :
    (get (answering (some (.STRING [97, 0, 98]))) (ascii "k")).1 = .returned [97] ∧
    (get (answering (some (.STRING [97, 0, 98]))) (ascii "k")).1 ≠ .returned [97, 0, 98] := by
  decide

/-- C6 (amended): for each of get, hget, lpop and rpop, a present bulk string
with bytes s gives the bytes of s before its first NUL byte, which is exactly s
when s holds no NUL byte; a null reply gives the empty string; no error is
raised in either case. -/
theorem read_scalar_result (c : redisContext) (reply : Option redisReply)
    (h : Replies c reply) (key field : Bytes) :
    (∀ s, reply = some (.STRING s) →
      (get c key).1 = .returned (c_str s) ∧ (hget c key field).1 = .returned (c_str s) ∧
      (lpop c key).1 = .returned (c_str s) ∧ (rpop c key).1 = .returned (c_str s)) ∧
    (∀ s, reply = some (.STRING s) → (0 : Byte) ∉ s →
      (get c key).1 = .returned s ∧ (hget c key field).1 = .returned s ∧
      (lpop c key).1 = .returned s ∧ (rpop c key).1 = .returned s) ∧
    (reply = some .NIL →
      (get c key).1 = .returned [] ∧ (hget c key field).1 = .returned [] ∧
      (lpop c key).1 = .returned [] ∧ (rpop c key).1 = .returned []) := by
  refine ⟨?_, ?_, ?_⟩
  · rintro s rfl
    simp [get, hget, lpop, rpop, h _]
  · rintro s rfl hs
    simp [get, hget, lpop, rpop, h _, c_str_of_no_nul s hs]
  · rintro rfl
    simp [get, hget, lpop, rpop, h _]

/-- An instance of `read_scalar_result` at a concrete connection. -/
theorem read_scalar_result_witness :
    Replies (answering (some (.STRING (ascii "v")))) (some (.STRING (ascii "v"))) ∧
    (get (answering (some (.STRING (ascii "v")))) (ascii "k")).1 = .returned (ascii "v") :=
  ⟨answering_replies _,
    ((read_scalar_result _ _ (answering_replies _) (ascii "k") (ascii "f")).2.1
      (ascii "v") rfl (by decide)).1⟩

/-! ### Scores (C9) -/

/-- C9 (the code, `std::stod` being a parameter): when the reply is null or
absent, or is anything but a bulk string, `zscore` returns 0.0 and raises no
error.  When it is a bulk string, `zscore` ends exactly as `std::stod` ends on
the text before its first NUL byte: it returns the parsed value when `std::stod`
returns one, and when `std::stod` throws, its exception leaves `zscore`, which
then does not return 0.0. -/
theorem zscore_result {F : Type} (D : Double F) (c : redisContext) (reply : Option redisReply)
    (h : Replies c reply) (key member : Bytes) :
    (¬ IsString reply → (zscore D c key member).1 = .returned D.zero) ∧
    (∀ s, reply = some (.STRING s) → (zscore D c key member).1 = D.stod (c_str s)) ∧
    (∀ s x, reply = some (.STRING s) → D.stod (c_str s) = .returned x →
      (zscore D c key member).1 = .returned x) ∧
    (∀ s fault, reply = some (.STRING s) → D.stod (c_str s) = .failed fault →
      (zscore D c key member).1 = .failed fault ∧
      (zscore D c key member).1 ≠ .returned D.zero) := by
  have hs : ∀ s, reply = some (.STRING s) → (zscore D c key member).1 = D.stod (c_str s) := by
    rintro s rfl
    simp [zscore, h _]
  refine ⟨?_, hs, ?_, ?_⟩
  · intro hn
    unfold IsString at hn
    rcases reply with _ | r
    · simp [zscore, h _]
    · cases r <;> simp [zscore, h _] at hn ⊢
  · intro s x hr hx
    rw [hs s hr, hx]
  · intro s fault hr hx
    rw [hs s hr, hx]
    exact ⟨rfl, fun hne => by cases hne⟩

/-- An instance of `zscore_result` at the bulk string `abc`: whatever `std::stod`
does on `abc` is what `zscore` does, and with `std::invalid_argument` thrown
there `zscore` ends by that exception and returns no 0.0. -/
theorem zscore_result_witness :
    Replies (answering (some (.STRING (ascii "abc")))) (some (.STRING (ascii "abc"))) ∧
    ∀ (F : Type) (D : Double F),
      (zscore D (answering (some (.STRING (ascii "abc")))) (ascii "k") (ascii "m")).1
        = D.stod (ascii "abc") ∧
      (D.stod (ascii "abc") = .failed .invalid_argument →
        (zscore D (answering (some (.STRING (ascii "abc")))) (ascii "k") (ascii "m")).1
          = .failed .invalid_argument ∧
        (zscore D (answering (some (.STRING (ascii "abc")))) (ascii "k") (ascii "m")).1
          ≠ .returned D.zero) :=
  ⟨answering_replies _, fun _ D =>
    ⟨(zscore_result D _ _ (answering_replies _) (ascii "k") (ascii "m")).2.1 (ascii "abc") rfl,
      fun hx =>
        (zscore_result D _ _ (answering_replies _) (ascii "k") (ascii "m")).2.2.2
          (ascii "abc") .invalid_argument rfl hx⟩⟩

/-! ### Bounds in `hgetall` (C10) -/

theorem elementStr_string (es : List Bytes) (i : Nat) (hi : i < es.length) :
    ∃ s, elementStr (es.map .STRING) i = .returned s := by
  unfold elementStr
  simp [List.getElem?_map, List.getElem?_eq_getElem hi, redisReply.str]

theorem elementStr_past_end (element : List redisReply) (i : Nat) (hi : element.length ≤ i) :
    elementStr element i = .failed .out_of_bounds := by
  unfold elementStr
  simp [List.getElem?_eq_none hi]

theorem hgetallLoop_odd (es : List Bytes) :
    ∀ (n i : Nat) (result : Bytes), i + (2 * n + 1) = es.length →
      hgetallLoop (es.map .STRING) i result = .failed .out_of_bounds := by
  intro n
  induction n with
  | zero =>
    intro i result hlen
    obtain ⟨f, hf⟩ := elementStr_string es i (by omega)
    rw [hgetallLoop]
    have h1 : i < (es.map redisReply.STRING).length := by simp; omega
    simp only [h1, if_true, hf]
    rw [elementStr_past_end _ (i + 1) (by simp; omega)]
  | succ n ih =>
    intro i result hlen
    obtain ⟨f, hf⟩ := elementStr_string es i (by omega)
    obtain ⟨v, hv⟩ := elementStr_string es (i + 1) (by omega)
    rw [hgetallLoop]
    have h1 : i < (es.map redisReply.STRING).length := by simp; omega
    simp only [h1, if_true, hf, hv]
    exact ih (i + 2) _ (by omega)

theorem hgetallLoop_even (es : List Bytes) :
    ∀ (n i : Nat) (result : Bytes), i + 2 * n = es.length →
      ∃ text, hgetallLoop (es.map .STRING) i result = .returned text := by
  intro n
  induction n with
  | zero =>
    intro i result hlen
    rw [hgetallLoop]
    have h1 : ¬ i < (es.map redisReply.STRING).length := by simp; omega
    simp only [h1, if_false]
    exact ⟨_, rfl⟩
  | succ n ih =>
    intro i result hlen
    obtain ⟨f, hf⟩ := elementStr_string es i (by omega)
    obtain ⟨v, hv⟩ := elementStr_string es (i + 1) (by omega)
    rw [hgetallLoop]
    have h1 : i < (es.map redisReply.STRING).length := by simp; omega
    simp only [h1, if_true, hf, hv]
    exact ih (i + 2) _ (by omega)

/-- With an even number of bulk strings every access of `hgetall` is in bounds
and the call returns. -/
theorem hgetall_even_count_returns (c : redisContext) (es : List Bytes) (key : Bytes)
    (h : Replies c (some (.ARRAY (es.map .STRING)))) (heven : es.length % 2 = 0) :
    ∃ text, (hgetall c key).1 = .returned text := by
  simp only [hgetall, h _]
  exact hgetallLoop_even es (es.length / 2) 0 [] (by omega)

/-- C10 (the code at the failing inputs): for every Array reply holding an odd
number of bulk strings, the last round of the pairing loop of `hgetall` reads
`element[i + 1]` with `i + 1` equal to the element count, which is out of
bounds. -/
theorem hgetall_odd_count_out_of_bounds (c : redisContext) (es : List Bytes) (key : Bytes)
    (h : Replies c (some (.ARRAY (es.map .STRING)))) (hodd : es.length % 2 = 1) :
    (hgetall c key).1 = .failed .out_of_bounds := by
  simp only [hgetall, h _]
  exact hgetallLoop_odd es (es.length / 2) 0 [] (by omega)

/-- An instance of `hgetall_odd_count_out_of_bounds` at a concrete connection. -/
theorem hgetall_odd_count_out_of_bounds_witness :
    Replies (answering (some (.ARRAY ([ascii "field"].map .STRING))))
      (some (.ARRAY ([ascii "field"].map .STRING))) ∧
    [ascii "field"].length % 2 = 1 ∧
    (hgetall (answering (some (.ARRAY [.STRING (ascii "field")]))) (ascii "k")).1
      = .failed .out_of_bounds :=
  ⟨answering_replies _, by decide,
    hgetall_odd_count_out_of_bounds _ [ascii "field"] (ascii "k") (answering_replies _)
      (by decide)⟩

/-! ### Collections (C8) -/

theorem elementStr_string_eq (es : List Bytes) (i : Nat) (hi : i < es.length) :
    elementStr (es.map .STRING) i = .returned (c_str (es.get ⟨i, hi⟩)) := by
  unfold elementStr
  simp [List.getElem?_map, List.getElem?_eq_getElem hi, redisReply.str]

theorem linesLoop_strings (es : List Bytes) :
    ∀ (n i : Nat) (result : Bytes), i + n = es.length →
      linesLoop (es.map .STRING) i result
        = .returned (result ++ unlines ((es.drop i).map c_str)) := by
  intro n
  induction n with
  | zero =>
    intro i result hlen
    rw [linesLoop]
    have h1 : ¬ i < (es.map redisReply.STRING).length := by simp; omega
    simp only [h1, if_false]
    rw [List.drop_of_length_le (by omega)]
    simp [unlines]
  | succ n ih =>
    intro i result hlen
    have hi : i < es.length := by omega
    rw [linesLoop]
    have h1 : i < (es.map redisReply.STRING).length := by simp; omega
    simp only [h1, if_true, elementStr_string_eq es i hi]
    rw [ih (i + 1) _ (by omega), List.drop_eq_getElem_cons hi]
    simp [unlines]

theorem ascii_newline : ascii "\n" = [10] := by decide

theorem splitLinesFrom_line (e : Bytes) (he : (10 : Byte) ∉ e) :
    ∀ (line rest : Bytes),
      splitLinesFrom line (e ++ ascii "\n" ++ rest) = (line ++ e) :: splitLinesFrom [] rest := by
  induction e with
  | nil =>
    intro line rest
    rw [ascii_newline]
    simp [splitLinesFrom]
  | cons b t ih =>
    intro line rest
    have hb : b ≠ 10 := fun hb0 => he (by simp [hb0])
    have ht : (10 : Byte) ∉ t := fun h0 => he (List.mem_cons_of_mem _ h0)
    have := ih ht (line ++ [b]) rest
    simp only [List.cons_append, splitLinesFrom, hb, if_false]
    simpa using this

theorem splitLines_unlines (es : List Bytes) (h : ∀ e ∈ es, (10 : Byte) ∉ e) :
    splitLines (unlines es) = es := by
  unfold splitLines
  induction es with
  | nil => simp [unlines, splitLinesFrom]
  | cons e t ih =>
    rw [unlines, splitLinesFrom_line e (h e (by simp)) [] (unlines t),
      ih (fun x hx => h x (List.mem_cons_of_mem _ hx))]
    simp

theorem map_c_str_of_no_nul (es : List Bytes) (h : ∀ e ∈ es, (0 : Byte) ∉ e) :
    es.map c_str = es := by
  induction es with
  | nil => rfl
  | cons e t ih =>
    simp only [List.map_cons]
    rw [c_str_of_no_nul e (h e (by simp)), ih (fun x hx => h x (List.mem_cons_of_mem _ hx))]

theorem linesLoop_roundtrip (es : List Bytes)
    (h : ∀ e ∈ es, (10 : Byte) ∉ e ∧ (0 : Byte) ∉ e) :
    ∃ text, linesLoop (es.map .STRING) 0 [] = .returned text ∧ splitLines text = es := by
  refine ⟨unlines es, ?_, splitLines_unlines es (fun e he => (h e he).1)⟩
  rw [linesLoop_strings es es.length 0 [] (by omega)]
  simp [map_c_str_of_no_nul es (fun e he => (h e he).2)]

theorem linesLoop_nil : linesLoop [] 0 [] = .returned [] := by
  rw [linesLoop]
  simp

/-- C8 (as stated, refuted): for the Array reply whose one element is the bulk
string `a`, newline, `b`, the text `lrange` returns splits at its newline
terminators into the two entries `a` and `b`, not into the one element of the
reply. -/
theorem lrange_element_with_newline :
    (lrange (answering (some (.ARRAY [.STRING (ascii "a\nb")]))) (ascii "k") 0 (-1)).1
      = .returned (ascii "a\nb\n") ∧
    splitLines (ascii "a\nb\n") = [ascii "a", ascii "b"] ∧
    splitLines (ascii "a\nb\n") ≠ [ascii "a\nb"] := by
  refine ⟨?_, by decide, by decide⟩
  have h := linesLoop_strings [ascii "a\nb"] 1 0 [] (by decide)
  simp only [lrange, answering_replies _ _]
  rw [List.map_cons, List.map_nil] at h
  rw [h]
  decide

/-- C8 (amended): for each of lrange, smembers, zrange and keys and every Array
reply whose elements are the bulk strings e1..en, none of them holding a newline
or a NUL byte, the call returns a text that, split at its newline terminators,
gives back exactly the list [e1, ..., en] in reply order; and the result is the
empty text when the reply is not an Array or is an empty Array. -/
theorem collection_result (c : redisContext) (reply : Option redisReply) (h : Replies c reply)
    (key pattern : Bytes) (start stop : Int) :
    (∀ es : List Bytes, reply = some (.ARRAY (es.map .STRING)) →
      (∀ e ∈ es, (10 : Byte) ∉ e ∧ (0 : Byte) ∉ e) →
      (∃ text, (lrange c key start stop).1 = .returned text ∧ splitLines text = es) ∧
      (∃ text, (smembers c key).1 = .returned text ∧ splitLines text = es) ∧
      (∃ text, (zrange c key start stop).1 = .returned text ∧ splitLines text = es) ∧
      (∃ text, (keys c pattern).1 = .returned text ∧ splitLines text = es)) ∧
    ((¬ IsArray reply ∨ reply = some (.ARRAY [])) →
      (lrange c key start stop).1 = .returned [] ∧ (smembers c key).1 = .returned [] ∧
      (zrange c key start stop).1 = .returned [] ∧ (keys c pattern).1 = .returned []) := by
  constructor
  · rintro es rfl hes
    have hloop := linesLoop_roundtrip es hes
    simp only [lrange, smembers, zrange, keys, h _]
    exact ⟨hloop, hloop, hloop, hloop⟩
  · rintro (hn | rfl)
    · unfold IsArray at hn
      rcases reply with _ | r
      · simp [lrange, smembers, zrange, keys, h _]
      · cases r <;> simp [lrange, smembers, zrange, keys, h _] at hn ⊢
    · simp [lrange, smembers, zrange, keys, h _, linesLoop_nil]

/-- An instance of `collection_result` at a concrete connection. -/
theorem collection_result_witness :
    Replies (answering (some (.ARRAY ([ascii "a", ascii "b"].map .STRING))))
      (some (.ARRAY ([ascii "a", ascii "b"].map .STRING))) ∧
    ∃ text, (lrange (answering (some (.ARRAY ([ascii "a", ascii "b"].map .STRING))))
        (ascii "k") 0 (-1)).1 = .returned text ∧ splitLines text = [ascii "a", ascii "b"] :=
  ⟨answering_replies _,
    ((collection_result _ _ (answering_replies _) (ascii "k") (ascii "*") 0 (-1)).1
      [ascii "a", ascii "b"] rfl (by decide)).1⟩

/-! ### Writing then reading a value (C2) -/

theorem faithfulStore_snoc (db : List (Bytes × Bytes)) (written : List (List Bytes))
    (argv : List Bytes) :
    faithfulStore db (written ++ [argv]) = some (storeStep (storeAfter db written) argv).2 := by
  simp [faithfulStore]

theorem storeAfter_snoc (db : List (Bytes × Bytes)) (written : List (List Bytes))
    (argv : List Bytes) :
    storeAfter db (written ++ [argv]) = (storeStep (storeAfter db written) argv).1 := by
  simp [storeAfter]

theorem redisCommand_store (c : redisContext) (db : List (Bytes × Bytes)) (argv : List Bytes)
    (herr : c.err = false) (hpeer : c.peer = faithfulStore db) :
    redisCommand c argv
      = (some (storeStep (storeAfter db c.written) argv).2,
          { c with written := c.written ++ [argv] }) := by
  simp [redisCommand, herr, hpeer, faithfulStore_snoc]

/-- C2 (as stated, refuted): with the value of the three bytes `a`, NUL, `b`
written to an empty store that executes what it receives, `set` returns true,
the command that was written carries the value `a` only, and the following
`get` returns `a`, not the value given to `set`. -/
theorem set_get_value_with_nul :
    (set (connected []) (ascii "k") [97, 0, 98]).1 = .returned true ∧
    (set (connected []) (ascii "k") [97, 0, 98]).2.written = [[ascii "SET", ascii "k", [97]]] ∧
    (get (set (connected []) (ascii "k") [97, 0, 98]).2 (ascii "k")).1 = .returned [97] ∧
    (get (set (connected []) (ascii "k") [97, 0, 98]).2 (ascii "k")).1
      ≠ .returned [97, 0, 98] := by
  decide

/-- C2 (amended): for all keys k and values v, on a live connection to a store
that executes the commands it receives, set(k,v) returns true and a following
get(k) returns the bytes of v before its first NUL byte; this is exactly v for
every v that holds no NUL byte, the empty value and values with spaces
included. -/
theorem set_then_get (c : redisContext) (db : List (Bytes × Bytes)) (key value : Bytes)
    (herr : c.err = false) (hpeer : c.peer = faithfulStore db) :
    (set c key value).1 = .returned true ∧
    (get (set c key value).2 key).1 = .returned (c_str value) ∧
    ((0 : Byte) ∉ value → (get (set c key value).2 key).1 = .returned value) := by
  have hset : redisCommand c [ascii "SET", c_str key, c_str value]
      = (some (.STATUS (ascii "OK")),
          { c with written := c.written ++ [[ascii "SET", c_str key, c_str value]] }) := by
    rw [redisCommand_store c db _ herr hpeer]
    simp [storeStep]
  have hget : (get (set c key value).2 key).1 = .returned (c_str value) := by
    have hsecond := redisCommand_store
      { c with written := c.written ++ [[ascii "SET", c_str key, c_str value]] } db
      [ascii "GET", c_str key] herr hpeer
    simp only [set, hset, get, hsecond, storeAfter_snoc]
    simp [storeStep, lookup, c_str_idem]
  refine ⟨?_, hget, ?_⟩
  · simp only [set, hset]
    have : c_str (ascii "OK") = ascii "OK" := by decide
    simp [this]
  · intro h0
    rw [hget, c_str_of_no_nul value h0]

/-- An instance of `set_then_get` at a concrete connection. -/
theorem set_then_get_witness :
    (connected []).err = false ∧ (connected []).peer = faithfulStore [] ∧
    (get (set (connected []) (ascii "k") (ascii "a b")).2 (ascii "k")).1
      = .returned (ascii "a b") :=
  ⟨rfl, rfl, (set_then_get (connected []) [] (ascii "k") (ascii "a b") rfl rfl).2.2 (by decide)⟩

end RedisClient
